import Mathlib

/-!
Shallow embedding of the upstream device controller
(`cloud/pkg/devicecontroller/controller/upstream.go`): the twin-property
merge performed by `UpstreamController.updateDeviceStatus`, the message
dispatcher `dispatchMessage`, and the payload decoder
`unmarshalDeviceStatusMessage`, together with proofs of the spec's claims
about them.

Go maps are embedded as association lists (an iteration order made
explicit); Go `nil` pointers become `Option`; `int64` becomes `Int`
(the only operation used on it is base-10 formatting, so no wrap-around
is involved); `[]byte` payloads and structured JSON values are opaque
data, with the JSON marshal/unmarshal functions of the standard library
taken as abstract parameters.
-/

namespace v1alpha1

/-- Modelled from the spec: `v1alpha1.TwinProperty` (the `apis/devices`
package is not part of the supplied source). §3: `{ value: string,
metadata: mapping string → string }`; the metadata mapping is embedded as
an association list. -/
structure TwinProperty where
  Value : String
  Metadata : List (String × String)
deriving DecidableEq

/-- Modelled from the spec: one entry of a device's twin list (§3):
`{ propertyName, desired side, reported: TwinProperty }`. -/
structure Twin where
  PropertyName : String
  Desired : TwinProperty
  Reported : TwinProperty
deriving DecidableEq

/-- Modelled from the spec: `v1alpha1.DeviceStatus`, the ordered twin
sequence of a device (§3). -/
structure DeviceStatus where
  Twins : List Twin
deriving DecidableEq

/-- Modelled from the spec: a cached `v1alpha1.Device` (§3):
`{ id, namespace, status }`. -/
structure Device where
  Name : String
  Namespace : String
  Status : DeviceStatus
deriving DecidableEq

end v1alpha1

namespace types

/-- Modelled from the spec: the update entry's declared-type record
(§3: `metadata: optional{ type: string }`); the `types` package is not
part of the supplied source. -/
structure TypeMetadata where
  «Type» : String
deriving DecidableEq

/-- Modelled from the spec: the actual report's metadata
(§3: `metadata: optional{ timestamp: int64 }`). -/
structure ValueMetadata where
  Timestamp : Int
deriving DecidableEq

/-- Modelled from the spec: the actual report
(§3: `actual: optional{ value: string, metadata: ... }`); the value is
itself optional (a `nil` pointer in the source is `none`). -/
structure TwinValue where
  Value : Option String
  Metadata : Option ValueMetadata
deriving DecidableEq

/-- Modelled from the spec: one twin entry of a decoded update
(§3 `TwinData`): `{ actual : optional TwinValue, metadata : optional
TypeMetadata }`. -/
structure MsgTwin where
  Actual : Option TwinValue
  Metadata : Option TypeMetadata
deriving DecidableEq

/-- Modelled from the spec: a decoded `types.DeviceTwinUpdate` (§3): a
mapping from twin name to `MsgTwin`, embedded as an association list
whose order is the (arbitrary) Go map iteration order. -/
structure DeviceTwinUpdate where
  Twin : List (String × MsgTwin)
deriving DecidableEq

end types

namespace controller

/-- `DeviceStatus` of `upstream.go` (lines 37-39): the wrapper patched to
the store, `{ status : v1alpha1.DeviceStatus }`. -/
structure DeviceStatus where
  Status : v1alpha1.DeviceStatus
deriving DecidableEq

/-- `MergePatchType` constant of `upstream.go`. -/
def MergePatchType : String := "application/merge-patch+json"

/-- `ResourceTypeDevices` constant of `upstream.go`. -/
def ResourceTypeDevices : String := "devices"

/-- Lines 138-146 of `upstream.go`: the fresh `reported` TwinProperty
built from the update entry alone — `Value = *twin.Actual.Value`, a new
metadata map holding `"timestamp"` when `twin.Actual.Metadata != nil`
and `"type"` when `twin.Metadata != nil`. -/
def buildReported (twin : types.MsgTwin) (actual : types.TwinValue) (v : String) :
    v1alpha1.TwinProperty :=
  { Value := v
    Metadata :=
      (match actual.Metadata with
        | some m => [("timestamp", toString m.Timestamp)]
        | none => []) ++
      (match twin.Metadata with
        | some m => [("type", m.«Type»)]
        | none => []) }

/-- Lines 136-150 of `upstream.go`: the inner `for i, cacheTwin :=
range deviceStatus.Status.Twins` scan for one update entry `(twinName,
twin)` — on the first entry with `twinName == cacheTwin.PropertyName &&
twin.Actual != nil && twin.Actual.Value != nil` the `Reported` field is
overwritten and the scan `break`s; otherwise the scan continues. -/
def mergeOne : List v1alpha1.Twin → String → types.MsgTwin → List v1alpha1.Twin
  | [], _, _ => []
  | cacheTwin :: rest, twinName, twin =>
    match twin.Actual with
    | some actual =>
      match actual.Value with
      | some v =>
        if twinName = cacheTwin.PropertyName then
          { cacheTwin with Reported := buildReported twin actual v } :: rest
        else
          cacheTwin :: mergeOne rest twinName twin
      | none => cacheTwin :: mergeOne rest twinName twin
    | none => cacheTwin :: mergeOne rest twinName twin

/-- Lines 135-151 of `upstream.go`: the outer `for twinName, twin :=
range msgTwin.Twin` loop, folding `mergeOne` over the update map in its
iteration order. -/
def mergeTwins (twins : List v1alpha1.Twin) (update : List (String × types.MsgTwin)) :
    List v1alpha1.Twin :=
  update.foldl (fun acc p => mergeOne acc p.1 p.2) twins

/-- The `TwinProperty` that a successful match writes, as a function of
the update entry alone; `none` when the entry carries no actual value
(`twin.Actual == nil || twin.Actual.Value == nil`). -/
def freshReported (twin : types.MsgTwin) : Option v1alpha1.TwinProperty :=
  match twin.Actual with
  | some actual =>
    match actual.Value with
    | some v => some (buildReported twin actual v)
    | none => none
  | none => none

/-- First-match association-list lookup (the Go map access made
explicit). -/
def lookupKey {β : Type} (k : String) : List (String × β) → Option β
  | [] => none
  | p :: ps => if p.1 = k then some p.2 else lookupKey k ps

theorem lookupKey_eq_none {β : Type} {k : String} {l : List (String × β)} :
    lookupKey k l = none ↔ ∀ p ∈ l, p.1 ≠ k := by
  induction l with
  | nil => simp [lookupKey]
  | cons p ps ih =>
    by_cases h : p.1 = k <;> simp [lookupKey, h, ih]

theorem lookupKey_mem {β : Type} {k : String} {l : List (String × β)} {b : β}
    (h : lookupKey k l = some b) : (k, b) ∈ l := by
  induction l with
  | nil => simp [lookupKey] at h
  | cons p ps ih =>
    by_cases hp : p.1 = k
    · simp [lookupKey, hp] at h
      subst h
      rw [← hp]
      exact List.mem_cons_self _ _
    · simp [lookupKey, hp] at h
      exact List.mem_cons_of_mem _ (ih h)

theorem mergeOne_of_freshReported_none {d : types.MsgTwin}
    (h : freshReported d = none) (T : List v1alpha1.Twin) (n : String) :
    mergeOne T n d = T := by
  induction T with
  | nil => rfl
  | cons t ts ih =>
    cases hA : d.Actual with
    | none => simp [mergeOne, hA, ih]
    | some a =>
      cases hV : a.Value with
      | none => simp [mergeOne, hA, hV, ih]
      | some v => simp [freshReported, hA, hV] at h

theorem mergeOne_cons_of_freshReported {d : types.MsgTwin} {fr : v1alpha1.TwinProperty}
    (h : freshReported d = some fr) (t : v1alpha1.Twin) (ts : List v1alpha1.Twin)
    (n : String) :
    mergeOne (t :: ts) n d =
      if n = t.PropertyName then { t with Reported := fr } :: ts
      else t :: mergeOne ts n d := by
  cases hA : d.Actual with
  | none => simp [freshReported, hA] at h
  | some a =>
    cases hV : a.Value with
    | none => simp [freshReported, hA, hV] at h
    | some v =>
      have hfr : fr = buildReported d a v := by
        simp [freshReported, hA, hV] at h
        exact h.symm
      subst hfr
      simp [mergeOne, hA, hV]

theorem mergeOne_length (T : List v1alpha1.Twin) (n : String) (d : types.MsgTwin) :
    (mergeOne T n d).length = T.length := by
  cases hf : freshReported d with
  | none => rw [mergeOne_of_freshReported_none hf]
  | some fr =>
    induction T with
    | nil => rfl
    | cons t ts ih =>
      rw [mergeOne_cons_of_freshReported hf]
      by_cases hn : n = t.PropertyName <;> simp [hn, ih]

theorem mergeOne_map_PropertyName (T : List v1alpha1.Twin) (n : String)
    (d : types.MsgTwin) :
    (mergeOne T n d).map v1alpha1.Twin.PropertyName = T.map v1alpha1.Twin.PropertyName := by
  cases hf : freshReported d with
  | none => rw [mergeOne_of_freshReported_none hf]
  | some fr =>
    induction T with
    | nil => rfl
    | cons t ts ih =>
      rw [mergeOne_cons_of_freshReported hf]
      by_cases hn : n = t.PropertyName <;> simp [hn, ih]

theorem mergeOne_exists_get {T : List v1alpha1.Twin} {i : Nat} {t : v1alpha1.Twin}
    (ht : T[i]? = some t) (n : String) (d : types.MsgTwin) :
    ∃ t', (mergeOne T n d)[i]? = some t' ∧ t'.PropertyName = t.PropertyName ∧
      t'.Desired = t.Desired := by
  cases hf : freshReported d with
  | none => exact ⟨t, by rw [mergeOne_of_freshReported_none hf]; exact ht, rfl, rfl⟩
  | some fr =>
    induction T generalizing i with
    | nil => simp at ht
    | cons t0 ts ih =>
      rw [mergeOne_cons_of_freshReported hf]
      by_cases hn : n = t0.PropertyName
      · simp only [hn, if_pos rfl]
        cases i with
        | zero =>
          simp at ht
          exact ⟨{ t0 with Reported := fr }, by simp, by simp [← ht], by simp [← ht]⟩
        | succ j =>
          simp at ht ⊢
          exact ⟨t, ht, rfl, rfl⟩
      · rw [if_neg hn]
        cases i with
        | zero =>
          simp at ht ⊢
          exact ⟨ht.symm ▸ rfl, ht.symm ▸ rfl⟩
        | succ j =>
          simp at ht ⊢
          exact ih ht

theorem mergeOne_get_of_ne {T : List v1alpha1.Twin} {i : Nat} {t : v1alpha1.Twin}
    (ht : T[i]? = some t) {n : String} (hn : t.PropertyName ≠ n) (d : types.MsgTwin) :
    (mergeOne T n d)[i]? = some t := by
  cases hf : freshReported d with
  | none => rw [mergeOne_of_freshReported_none hf]; exact ht
  | some fr =>
    induction T generalizing i with
    | nil => simp at ht
    | cons t0 ts ih =>
      rw [mergeOne_cons_of_freshReported hf]
      by_cases hm : n = t0.PropertyName
      · rw [if_pos hm]
        cases i with
        | zero =>
          simp at ht
          exact absurd (ht ▸ hm).symm hn
        | succ j => simpa using ht
      · rw [if_neg hm]
        cases i with
        | zero => simpa using ht
        | succ j =>
          simp at ht ⊢
          exact ih ht

theorem mergeOne_of_no_match {T : List v1alpha1.Twin} {n : String}
    (h : ∀ t ∈ T, n ≠ t.PropertyName) (d : types.MsgTwin) :
    mergeOne T n d = T := by
  induction T with
  | nil => rfl
  | cons t ts ih =>
    have hn : n ≠ t.PropertyName := h t (List.mem_cons_self _ _)
    have hts : mergeOne ts n d = ts := ih fun u hu => h u (List.mem_cons_of_mem _ hu)
    cases hA : d.Actual with
    | none => simp [mergeOne, hA, hts]
    | some a =>
      cases hV : a.Value with
      | none => simp [mergeOne, hA, hV, hts]
      | some v => simp [mergeOne, hA, hV, hn, hts]

theorem mergeOne_get_first_match {T : List v1alpha1.Twin} {i : Nat} {t : v1alpha1.Twin}
    {n : String} {d : types.MsgTwin} {fr : v1alpha1.TwinProperty}
    (ht : T[i]? = some t) (hname : t.PropertyName = n)
    (hfirst : ∀ j, j < i → ∀ tj, T[j]? = some tj → tj.PropertyName ≠ n)
    (hfr : freshReported d = some fr) :
    (mergeOne T n d)[i]? = some { t with Reported := fr } := by
  induction T generalizing i with
  | nil => simp at ht
  | cons t0 ts ih =>
    rw [mergeOne_cons_of_freshReported hfr]
    cases i with
    | zero =>
      simp at ht
      subst ht
      rw [if_pos hname.symm]
      simp
    | succ j =>
      have h0 : t0.PropertyName ≠ n :=
        hfirst 0 (Nat.succ_pos j) t0 (by simp)
      rw [if_neg (Ne.symm h0)]
      simp only [List.getElem?_cons_succ] at ht ⊢
      exact ih ht fun j' hj' tj htj =>
        hfirst (j' + 1) (Nat.succ_lt_succ hj') tj (by simpa using htj)

theorem mergeOne_get_dup {T : List v1alpha1.Twin} {i j : Nat}
    {ti tj : v1alpha1.Twin}
    (hij : i < j) (hti : T[i]? = some ti) (htj : T[j]? = some tj)
    (hdup : ti.PropertyName = tj.PropertyName) (n : String) (d : types.MsgTwin) :
    (mergeOne T n d)[j]? = some tj := by
  cases hf : freshReported d with
  | none => rw [mergeOne_of_freshReported_none hf]; exact htj
  | some fr =>
    induction T generalizing i j with
    | nil => simp at hti
    | cons t0 ts ih =>
      rw [mergeOne_cons_of_freshReported hf]
      by_cases hm : n = t0.PropertyName
      · rw [if_pos hm]
        cases j with
        | zero => exact absurd hij (Nat.not_lt_zero i)
        | succ j' => simpa using htj
      · rw [if_neg hm]
        cases j with
        | zero => exact absurd hij (Nat.not_lt_zero i)
        | succ j' =>
          simp only [List.getElem?_cons_succ] at htj ⊢
          cases i with
          | zero =>
            simp at hti
            subst hti
            have hn : tj.PropertyName ≠ n := by
              rw [← hdup]
              exact fun hc => hm (hc.symm)
            exact mergeOne_get_of_ne htj hn d
          | succ i' =>
            simp only [List.getElem?_cons_succ] at hti
            exact ih (Nat.lt_of_succ_lt_succ hij) hti htj

theorem mergeTwins_nil (T : List v1alpha1.Twin) : mergeTwins T [] = T := rfl

theorem mergeTwins_cons (T : List v1alpha1.Twin) (p : String × types.MsgTwin)
    (U : List (String × types.MsgTwin)) :
    mergeTwins T (p :: U) = mergeTwins (mergeOne T p.1 p.2) U := rfl

theorem mergeTwins_length (T : List v1alpha1.Twin) (U : List (String × types.MsgTwin)) :
    (mergeTwins T U).length = T.length := by
  induction U generalizing T with
  | nil => rfl
  | cons p U ih => rw [mergeTwins_cons, ih, mergeOne_length]

theorem mergeTwins_map_PropertyName (T : List v1alpha1.Twin)
    (U : List (String × types.MsgTwin)) :
    (mergeTwins T U).map v1alpha1.Twin.PropertyName = T.map v1alpha1.Twin.PropertyName := by
  induction U generalizing T with
  | nil => rfl
  | cons p U ih => rw [mergeTwins_cons, ih, mergeOne_map_PropertyName]

theorem mergeOne_name_at {T : List v1alpha1.Twin} {n : String} {d : types.MsgTwin}
    {j : Nat} {tj' : v1alpha1.Twin} (h : (mergeOne T n d)[j]? = some tj') :
    ∃ tj, T[j]? = some tj ∧ tj.PropertyName = tj'.PropertyName := by
  have hmap := congrArg (fun l => l[j]?) (mergeOne_map_PropertyName T n d)
  simp only [List.getElem?_map, h] at hmap
  obtain ⟨tj, htj, hname⟩ := Option.map_eq_some'.mp hmap.symm
  exact ⟨tj, htj, hname⟩

theorem mergeTwins_get_of_lookup_none {T : List v1alpha1.Twin} {i : Nat}
    {t : v1alpha1.Twin} {U : List (String × types.MsgTwin)}
    (hU : ∀ p ∈ U, p.1 ≠ t.PropertyName) (ht : T[i]? = some t) :
    (mergeTwins T U)[i]? = some t := by
  induction U generalizing T with
  | nil => exact ht
  | cons p U ih =>
    rw [mergeTwins_cons]
    have hp : p.1 ≠ t.PropertyName := hU p (List.mem_cons_self _ _)
    exact ih (fun q hq => hU q (List.mem_cons_of_mem _ hq))
      (mergeOne_get_of_ne ht (Ne.symm hp) p.2)

theorem mergeTwins_get_write {U : List (String × types.MsgTwin)}
    {T : List v1alpha1.Twin} {i : Nat} {t : v1alpha1.Twin} {d : types.MsgTwin}
    {fr : v1alpha1.TwinProperty}
    (hU : (U.map Prod.fst).Nodup)
    (ht : T[i]? = some t)
    (hl : lookupKey t.PropertyName U = some d)
    (hfirst : ∀ j, j < i → ∀ tj, T[j]? = some tj → tj.PropertyName ≠ t.PropertyName)
    (hfr : freshReported d = some fr) :
    (mergeTwins T U)[i]? = some { t with Reported := fr } := by
  induction U generalizing T with
  | nil => simp [lookupKey] at hl
  | cons p U ih =>
    rw [mergeTwins_cons]
    rw [List.map_cons, List.nodup_cons] at hU
    by_cases hp : p.1 = t.PropertyName
    · have hd : d = p.2 := by simp [lookupKey, hp] at hl; exact hl.symm
      subst hd
      have hw : (mergeOne T p.1 p.2)[i]? = some { t with Reported := fr } :=
        mergeOne_get_first_match ht hp.symm
          (fun j hj tj htj => fun hc => hfirst j hj tj htj (hc.trans hp.symm.symm)) hfr
      refine mergeTwins_get_of_lookup_none (t := { t with Reported := fr }) ?_ hw
      intro q hq hc
      exact hU.1 ((hc.trans hp.symm) ▸ List.mem_map_of_mem Prod.fst hq)
    · have hl' : lookupKey t.PropertyName U = some d := by
        simp [lookupKey, hp] at hl; exact hl
      have ht' : (mergeOne T p.1 p.2)[i]? = some t :=
        mergeOne_get_of_ne ht (fun hc => hp hc.symm) p.2
      refine ih hU.2 ht' hl' ?_
      intro j hj tj' htj'
      obtain ⟨tj, htj, hname⟩ := mergeOne_name_at htj'
      rw [← hname]
      exact hfirst j hj tj htj

theorem mergeTwins_get_dup {T : List v1alpha1.Twin} {i j : Nat}
    {ti tj : v1alpha1.Twin} {U : List (String × types.MsgTwin)}
    (hij : i < j) (hti : T[i]? = some ti) (htj : T[j]? = some tj)
    (hdup : ti.PropertyName = tj.PropertyName) :
    (mergeTwins T U)[j]? = some tj := by
  induction U generalizing T ti with
  | nil => exact htj
  | cons p U ih =>
    rw [mergeTwins_cons]
    obtain ⟨ti', hti', hname, _⟩ := mergeOne_exists_get hti p.1 p.2
    exact ih hti' (mergeOne_get_dup hij hti htj hdup p.1 p.2) (hname.trans hdup)

theorem mergeOne_idem (T : List v1alpha1.Twin) (n : String) (d : types.MsgTwin) :
    mergeOne (mergeOne T n d) n d = mergeOne T n d := by
  cases hf : freshReported d with
  | none => rw [mergeOne_of_freshReported_none hf, mergeOne_of_freshReported_none hf]
  | some fr =>
    induction T with
    | nil => rfl
    | cons t ts ih =>
      rw [mergeOne_cons_of_freshReported hf]
      by_cases hn : n = t.PropertyName
      · rw [if_pos hn, mergeOne_cons_of_freshReported hf]
        simp [hn]
      · rw [if_neg hn, mergeOne_cons_of_freshReported hf, if_neg hn, ih]

theorem mergeOne_comm {n₁ n₂ : String} (hne : n₁ ≠ n₂)
    (T : List v1alpha1.Twin) (d₁ d₂ : types.MsgTwin) :
    mergeOne (mergeOne T n₁ d₁) n₂ d₂ = mergeOne (mergeOne T n₂ d₂) n₁ d₁ := by
  cases hf₁ : freshReported d₁ with
  | none => rw [mergeOne_of_freshReported_none hf₁, mergeOne_of_freshReported_none hf₁]
  | some fr₁ =>
    cases hf₂ : freshReported d₂ with
    | none => rw [mergeOne_of_freshReported_none hf₂, mergeOne_of_freshReported_none hf₂]
    | some fr₂ =>
      induction T with
      | nil => rfl
      | cons t ts ih =>
        by_cases h₁ : n₁ = t.PropertyName
        · have h₂ : ¬ n₂ = t.PropertyName := fun hc => hne (h₁.trans hc.symm)
          simp [mergeOne_cons_of_freshReported hf₁, mergeOne_cons_of_freshReported hf₂,
            h₁, h₂]
        · by_cases h₂ : n₂ = t.PropertyName
          · simp [mergeOne_cons_of_freshReported hf₁, mergeOne_cons_of_freshReported hf₂,
              h₁, h₂]
          · simp [mergeOne_cons_of_freshReported hf₁, mergeOne_cons_of_freshReported hf₂,
              h₁, h₂, ih]

theorem mergeTwins_mergeOne_comm {U : List (String × types.MsgTwin)} {n : String}
    (hk : ∀ p ∈ U, p.1 ≠ n) (T : List v1alpha1.Twin) (d : types.MsgTwin) :
    mergeOne (mergeTwins T U) n d = mergeTwins (mergeOne T n d) U := by
  induction U generalizing T with
  | nil => rfl
  | cons p U ih =>
    rw [mergeTwins_cons, mergeTwins_cons,
      ih (fun q hq => hk q (List.mem_cons_of_mem _ hq)),
      mergeOne_comm (hk p (List.mem_cons_self _ _)) T p.2 d]

theorem mergeTwins_idem {U : List (String × types.MsgTwin)}
    (hU : (U.map Prod.fst).Nodup) (T : List v1alpha1.Twin) :
    mergeTwins (mergeTwins T U) U = mergeTwins T U := by
  induction U generalizing T with
  | nil => rfl
  | cons p U ih =>
    rw [List.map_cons, List.nodup_cons] at hU
    have hk : ∀ q ∈ U, q.1 ≠ p.1 := fun q hq hc =>
      hU.1 (hc ▸ List.mem_map_of_mem Prod.fst hq)
    rw [mergeTwins_cons, mergeTwins_cons,
      mergeTwins_mergeOne_comm hk (mergeOne T p.1 p.2) p.2,
      mergeOne_idem, ih hU.2]

theorem mergeTwins_perm {U U' : List (String × types.MsgTwin)} (h : U.Perm U')
    (hU : (U.map Prod.fst).Nodup) (T : List v1alpha1.Twin) :
    mergeTwins T U = mergeTwins T U' := by
  induction h generalizing T with
  | nil => rfl
  | cons x h ih =>
    rw [List.map_cons, List.nodup_cons] at hU
    rw [mergeTwins_cons, mergeTwins_cons]
    exact ih hU.2 _
  | swap x y l =>
    rw [List.map_cons, List.map_cons, List.nodup_cons, List.mem_cons] at hU
    have hxy : y.1 ≠ x.1 := fun hc => hU.1 (Or.inl hc)
    rw [mergeTwins_cons, mergeTwins_cons, mergeTwins_cons, mergeTwins_cons,
      mergeOne_comm hxy T y.2 x.2]
  | trans h₁ h₂ ih₁ ih₂ =>
    have hU₂ := ((h₁.map Prod.fst).nodup_iff).mp hU
    rw [ih₁ hU T, ih₂ hU₂ T]

/-- Lines 134, 147, 154 of `upstream.go` at device level: copy the cached
status, merge the update into its twin list, and write the merged status
back into the device; `Name` and `Namespace` are never touched. -/
def mergeDeviceStatus (cacheDevice : v1alpha1.Device)
    (update : List (String × types.MsgTwin)) : v1alpha1.Device :=
  { cacheDevice with
    Status := { cacheDevice.Status with
      Twins := mergeTwins cacheDevice.Status.Twins update } }

/-- A message payload: either a raw byte slice or a structured (non-byte)
value, both opaque here (`msg.GetContent()` returns a dynamically typed
value). -/
inductive Content where
  | bytes (b : String)
  | structured (v : String)
deriving DecidableEq

/-- A beehive `model.Message` as the controller reads it: `GetID`,
`GetOperation`, `GetResource`, `GetContent` become fields. -/
structure Message where
  ID : String
  Operation : String
  Resource : String
  Content : Content
deriving DecidableEq

/-- `UpstreamController.unmarshalDeviceStatusMessage` (lines 172-189):
byte content is unmarshaled directly; any other content is first
marshaled and the bytes then unmarshaled; each failing step returns the
error and no result. `jsonMarshalValue` and `jsonUnmarshalUpdate` stand
for `json.Marshal` / `json.Unmarshal` of the standard library. -/
def unmarshalDeviceStatusMessage
    (jsonMarshalValue : String → Except String String)
    (jsonUnmarshalUpdate : String → Except String types.DeviceTwinUpdate)
    (msg : Message) : Except String types.DeviceTwinUpdate :=
  match msg.Content with
  | Content.bytes contentData => jsonUnmarshalUpdate contentData
  | Content.structured content =>
    match jsonMarshalValue content with
    | Except.error e => Except.error e
    | Except.ok contentData => jsonUnmarshalUpdate contentData

/-- An observable side effect of one worker iteration: a `Store` into
the shared device cache, or a `Patch` request issued to the resource
store. -/
inductive Effect where
  | store (deviceID : String) (device : v1alpha1.Device)
  | patch (Namespace Resource Name Body PatchType : String)
deriving DecidableEq

/-- One iteration of `UpstreamController.updateDeviceStatus`
(lines 112-167) on a dequeued message: decode, resolve the device id,
load from the cache, merge, store back, marshal, patch.  Effects are
listed in program order.  The `device.(*v1alpha1.Device)` assertion of
line 129 always succeeds here because the cache holds `Device` values
by type; the patch call's own result is only logged (lines 163-166) and
so does not appear in the state.  `getDeviceID` stands for
`messagelayer.GetDeviceID` and `jsonMarshalStatus` for `json.Marshal`
of the status wrapper. -/
def updateDeviceStatusOnce
    (jsonMarshalValue : String → Except String String)
    (jsonUnmarshalUpdate : String → Except String types.DeviceTwinUpdate)
    (getDeviceID : String → Except String String)
    (jsonMarshalStatus : DeviceStatus → Except String String)
    (cache : String → Option v1alpha1.Device) (msg : Message) :
    (String → Option v1alpha1.Device) × List Effect :=
  match unmarshalDeviceStatusMessage jsonMarshalValue jsonUnmarshalUpdate msg with
  | Except.error _ => (cache, [])
  | Except.ok msgTwin =>
    match getDeviceID msg.Resource with
    | Except.error _ => (cache, [])
    | Except.ok deviceID =>
      match cache deviceID with
      | none => (cache, [])
      | some cacheDevice =>
        let deviceStatus : DeviceStatus :=
          { Status := { cacheDevice.Status with
              Twins := mergeTwins cacheDevice.Status.Twins msgTwin.Twin } }
        let newDevice : v1alpha1.Device := { cacheDevice with Status := deviceStatus.Status }
        let cache' : String → Option v1alpha1.Device :=
          fun k => if k = deviceID then some newDevice else cache k
        match jsonMarshalStatus deviceStatus with
        | Except.error _ => (cache', [Effect.store deviceID newDevice])
        | Except.ok body =>
          (cache', [Effect.store deviceID newDevice,
            Effect.patch cacheDevice.Namespace ResourceTypeDevices deviceID body
              MergePatchType])

/-- The worker loop over a queue of messages: each iteration runs
`updateDeviceStatusOnce` on the next message and continues with the
resulting cache, concatenating the effects. -/
def updateDeviceStatusLoop
    (jsonMarshalValue : String → Except String String)
    (jsonUnmarshalUpdate : String → Except String types.DeviceTwinUpdate)
    (getDeviceID : String → Except String String)
    (jsonMarshalStatus : DeviceStatus → Except String String)
    (cache : String → Option v1alpha1.Device) :
    List Message → (String → Option v1alpha1.Device) × List Effect
  | [] => (cache, [])
  | msg :: msgs =>
    let r := updateDeviceStatusOnce jsonMarshalValue jsonUnmarshalUpdate getDeviceID
      jsonMarshalStatus cache msg
    let r' := updateDeviceStatusLoop jsonMarshalValue jsonUnmarshalUpdate getDeviceID
      jsonMarshalStatus r.1 msgs
    (r'.1, r.2 ++ r'.2)

/-- Modelled from the spec: `constants.ResourceTypeTwinEdgeUpdated`, the
"edge twin updated" resource-type discriminator (§4.1); the `constants`
package is not part of the supplied source and no claim depends on the
literal value. -/
def ResourceTypeTwinEdgeUpdated : String := "twin_edge_updated"

/-- One iteration of `UpstreamController.dispatchMessage` (lines 82-102)
on one receive result: a receive error, an unparseable resource locator
(`getResourceType` stands for `messagelayer.GetResourceType`), or a
resource type other than `ResourceTypeTwinEdgeUpdated` drops the
message; otherwise the message is pushed onto the worker queue. -/
def dispatchStep (getResourceType : String → Except String String)
    (received : Except String Message) : Option Message :=
  match received with
  | Except.error _ => none
  | Except.ok msg =>
    match getResourceType msg.Resource with
    | Except.error _ => none
    | Except.ok resourceType =>
      if resourceType = ResourceTypeTwinEdgeUpdated then some msg else none

/-- The dispatcher loop over a stream of receive results, returning the
sequence of messages pushed onto the worker queue. -/
def dispatchMessageLoop (getResourceType : String → Except String String) :
    List (Except String Message) → List Message
  | [] => []
  | r :: rs =>
    match dispatchStep getResourceType r with
    | some msg => msg :: dispatchMessageLoop getResourceType rs
    | none => dispatchMessageLoop getResourceType rs

/-- The pointwise old/new relation of claim C1: the name and desired
side are unchanged, and the `Reported` side is the freshly built
property for names in the update, the old one otherwise. -/
def mergedRel (U : List (String × types.MsgTwin)) (old new : v1alpha1.Twin) : Prop :=
  new.PropertyName = old.PropertyName ∧ new.Desired = old.Desired ∧
    match lookupKey old.PropertyName U with
    | some d => some new.Reported = freshReported d
    | none => new.Reported = old.Reported

instance (U : List (String × types.MsgTwin)) (old new : v1alpha1.Twin) :
    Decidable (mergedRel U old new) := by
  unfold mergedRel
  cases lookupKey old.PropertyName U <;> exact inferInstance


theorem nodup_first_match {T : List v1alpha1.Twin}
    (hT : (T.map v1alpha1.Twin.PropertyName).Nodup) {i : Nat} {t : v1alpha1.Twin}
    (ht : T[i]? = some t) :
    ∀ j, j < i → ∀ tj, T[j]? = some tj → tj.PropertyName ≠ t.PropertyName := by
  intro j hj tj htj hc
  obtain ⟨hi, -⟩ := List.getElem?_eq_some_iff.mp ht
  have hne := List.nodup_iff_getElem?_ne_getElem?.mp hT j i hj
    (by rw [List.length_map]; exact hi)
  apply hne
  simp only [List.getElem?_map, ht, htj, Option.map_some']
  rw [hc]

/-- C1 (amended with pairwise-distinct cached property names; the claim
as stated fails when the cached twin list repeats a propertyName, see
the counterexample): merging an update whose keys all occur in the
cached twin list and whose entries all carry a non-null actual value
keeps the device's name and namespace, keeps the twin list's length and
order, replaces `Reported` exactly at the entries named by the update,
and leaves every other field of every entry unchanged. -/
theorem C1_merge_exact (dev : v1alpha1.Device) (U : List (String × types.MsgTwin))
    (hT : (dev.Status.Twins.map v1alpha1.Twin.PropertyName).Nodup)
    (hU : (U.map Prod.fst).Nodup)
    (_hknown : ∀ p ∈ U, ∃ t ∈ dev.Status.Twins, p.1 = t.PropertyName)
    (hactual : ∀ p ∈ U, (freshReported p.2).isSome) :
    (mergeDeviceStatus dev U).Name = dev.Name ∧
    (mergeDeviceStatus dev U).Namespace = dev.Namespace ∧
    (mergeDeviceStatus dev U).Status.Twins.length = dev.Status.Twins.length ∧
    List.Forall₂ (mergedRel U) dev.Status.Twins (mergeDeviceStatus dev U).Status.Twins := by
  refine ⟨rfl, rfl, mergeTwins_length _ _, ?_⟩
  rw [List.forall₂_iff_get]
  refine ⟨(mergeTwins_length _ _).symm, ?_⟩
  intro i h₁ h₂
  simp only [List.get_eq_getElem, mergeDeviceStatus] at h₂ ⊢
  have ht : dev.Status.Twins[i]? = some dev.Status.Twins[i] :=
    List.getElem?_eq_getElem h₁
  cases hl : lookupKey dev.Status.Twins[i].PropertyName U with
  | none =>
    have hres := mergeTwins_get_of_lookup_none (U := U)
      (lookupKey_eq_none.mp hl) ht
    rw [List.getElem?_eq_getElem h₂, Option.some.injEq] at hres
    rw [hres]
    exact ⟨rfl, rfl, by rw [hl]⟩
  | some d =>
    have hmem := lookupKey_mem hl
    obtain ⟨fr, hfr⟩ := Option.isSome_iff_exists.mp (hactual _ hmem)
    have hres := mergeTwins_get_write hU ht hl
      (nodup_first_match hT ht) hfr
    rw [List.getElem?_eq_getElem h₂, Option.some.injEq] at hres
    rw [hres]
    exact ⟨rfl, rfl, by rw [hl]; exact hfr.symm⟩

/-- A sample cached device with two distinct twin names, used by the
witnesses. -/
def sampleDevice : v1alpha1.Device :=
  { Name := "dev-1", Namespace := "default",
    Status := { Twins :=
      [{ PropertyName := "temperature",
         Desired := { Value := "20", Metadata := [] },
         Reported := { Value := "0", Metadata := [] } },
       { PropertyName := "humidity",
         Desired := { Value := "50", Metadata := [] },
         Reported := { Value := "1", Metadata := [] } }] } }

/-- A sample update naming both twins of `sampleDevice`, one entry with
full metadata and one with none. -/
def sampleUpdate : List (String × types.MsgTwin) :=
  [("temperature",
    { Actual := some
        { Value := some "42", Metadata := some { Timestamp := (1000 : Int) } },
      Metadata := some { «Type» := "int" } }),
   ("humidity",
    { Actual := some { Value := some "60", Metadata := none },
      Metadata := none })]

/-- Witness for C1: both twins of the sample device are updated. -/
theorem C1_merge_exact_witness :
    (sampleDevice.Status.Twins.map v1alpha1.Twin.PropertyName).Nodup ∧
    List.Forall₂ (mergedRel sampleUpdate) sampleDevice.Status.Twins
      (mergeDeviceStatus sampleDevice sampleUpdate).Status.Twins :=
  ⟨by decide,
    (C1_merge_exact sampleDevice sampleUpdate
      (by decide) (by decide) (by decide) (by decide)).2.2.2⟩

/-- A cached twin list with a duplicated property name "a". -/
def dupTwinList : List v1alpha1.Twin :=
  [{ PropertyName := "a",
     Desired := { Value := "", Metadata := [] },
     Reported := { Value := "0", Metadata := [] } },
   { PropertyName := "a",
     Desired := { Value := "", Metadata := [] },
     Reported := { Value := "0", Metadata := [] } }]

/-- An update naming "a" with a non-null actual value. -/
def dupUpdate : List (String × types.MsgTwin) :=
  [("a",
    { Actual := some { Value := some "1", Metadata := none },
      Metadata := none })]

/-- Counterexample to C1 as stated: with a cached twin list that repeats
the propertyName "a", an update naming "a" (a known name, with a
non-null actual value) replaces only the first entry's `Reported`; the
second entry is also named by the update but keeps its old `Reported`,
so the claimed pointwise correspondence fails. -/
theorem C1_counterexample :
    (∀ p ∈ dupUpdate, ∃ t ∈ dupTwinList, p.1 = t.PropertyName) ∧
    (∀ p ∈ dupUpdate, (freshReported p.2).isSome) ∧
    ¬ List.Forall₂ (mergedRel dupUpdate) dupTwinList
      (mergeTwins dupTwinList dupUpdate) := by
  refine ⟨by decide, by decide, ?_⟩
  intro h
  have h1 := h.get (i := 1) (by decide) (by rw [mergeTwins_length]; decide)
  revert h1
  decide

/-- C2: when a merge applies to a matched twin entry (the first entry
whose propertyName equals the update key, with a non-null actual
value), that entry's `Reported` is replaced by a fresh TwinProperty:
its value is the actual value; its metadata holds `"timestamp"` exactly
when the actual report's metadata is present, `"type"` exactly when the
update entry's metadata is present, and nothing else; the old
`Reported` contents are discarded wholesale (the fresh property is a
function of the update entry alone, via `freshReported`). -/
theorem C2_reported_overwrite (T : List v1alpha1.Twin) (n : String) (d : types.MsgTwin)
    (i : Nat) (t : v1alpha1.Twin) (fr : v1alpha1.TwinProperty)
    (ht : T[i]? = some t) (hname : t.PropertyName = n)
    (hfirst : ∀ j, j < i → ∀ tj, T[j]? = some tj → tj.PropertyName ≠ n)
    (hfr : freshReported d = some fr) :
    (mergeOne T n d)[i]? = some { t with Reported := fr } ∧
    (∃ actual, d.Actual = some actual ∧ actual.Value = some fr.Value ∧
      ((∃ m, actual.Metadata = some m ∧
          lookupKey "timestamp" fr.Metadata = some (toString m.Timestamp)) ∨
        (actual.Metadata = none ∧ lookupKey "timestamp" fr.Metadata = none))) ∧
    ((∃ m, d.Metadata = some m ∧ lookupKey "type" fr.Metadata = some m.«Type») ∨
      (d.Metadata = none ∧ lookupKey "type" fr.Metadata = none)) ∧
    (∀ p ∈ fr.Metadata, p.1 = "timestamp" ∨ p.1 = "type") := by
  refine ⟨mergeOne_get_first_match ht hname hfirst hfr, ?_⟩
  cases hA : d.Actual with
  | none => simp [freshReported, hA] at hfr
  | some a =>
    cases hV : a.Value with
    | none => simp [freshReported, hA, hV] at hfr
    | some v =>
      have hfr' : fr = buildReported d a v := by
        simp [freshReported, hA, hV] at hfr
        exact hfr.symm
      subst hfr'
      refine ⟨⟨a, rfl, hV, ?_⟩, ?_, ?_⟩
      · cases hm : a.Metadata with
        | some m =>
          exact Or.inl ⟨m, rfl, by simp [buildReported, lookupKey, hm]⟩
        | none =>
          refine Or.inr ⟨rfl, ?_⟩
          cases hd : d.Metadata <;> simp [buildReported, lookupKey, hm, hd]
      · cases hd : d.Metadata with
        | some m =>
          refine Or.inl ⟨m, rfl, ?_⟩
          cases hm : a.Metadata <;> simp [buildReported, lookupKey, hm, hd]
        | none =>
          refine Or.inr ⟨rfl, ?_⟩
          cases hm : a.Metadata <;> simp [buildReported, lookupKey, hm, hd]
      · intro p hp
        cases hm : a.Metadata with
        | none =>
          cases hd : d.Metadata with
          | none => simp [buildReported, hm, hd] at hp
          | some m' =>
            simp [buildReported, hm, hd] at hp
            right
            rw [hp]
        | some m =>
          cases hd : d.Metadata with
          | none =>
            simp [buildReported, hm, hd] at hp
            left
            rw [hp]
          | some m' =>
            simp [buildReported, hm, hd] at hp
            rcases hp with hp | hp
            · left
              rw [hp]
            · right
              rw [hp]

/-- The "temperature" entry of `sampleUpdate`. -/
def tempMsgTwin : types.MsgTwin :=
  { Actual := some
      { Value := some "42", Metadata := some { Timestamp := (1000 : Int) } },
    Metadata := some { «Type» := "int" } }

/-- The fresh reported property `tempMsgTwin` produces. -/
def tempFresh : v1alpha1.TwinProperty :=
  { Value := "42", Metadata := [("timestamp", "1000"), ("type", "int")] }

/-- Witness for C2: the first twin of the sample device is overwritten
with the fresh reported property. -/
theorem C2_reported_overwrite_witness :
    (mergeOne sampleDevice.Status.Twins "temperature" tempMsgTwin)[0]? =
      some { PropertyName := "temperature",
             Desired := { Value := "20", Metadata := [] },
             Reported := tempFresh } :=
  (C2_reported_overwrite sampleDevice.Status.Twins "temperature" tempMsgTwin 0
    { PropertyName := "temperature",
      Desired := { Value := "20", Metadata := [] },
      Reported := { Value := "0", Metadata := [] } } tempFresh
    (by decide) (by decide) (fun j hj _ _ => absurd hj (Nat.not_lt_zero j))
    (by decide)).1

/-- C3: merging an empty update, update entries whose keys match no
cached propertyName, or update entries whose actual value is null, is a
no-op: the merge returns the cached twin list unchanged. -/
theorem C3_merge_noop (T : List v1alpha1.Twin) (U : List (String × types.MsgTwin))
    (h : ∀ p ∈ U, freshReported p.2 = none ∨ ∀ t ∈ T, p.1 ≠ t.PropertyName) :
    mergeTwins T [] = T ∧ mergeTwins T U = T := by
  refine ⟨rfl, ?_⟩
  induction U with
  | nil => rfl
  | cons p U ih =>
    rw [mergeTwins_cons]
    have hone : mergeOne T p.1 p.2 = T := by
      cases h p (List.mem_cons_self _ _) with
      | inl hf => exact mergeOne_of_freshReported_none hf T p.1
      | inr hn => exact mergeOne_of_no_match hn p.2
    rw [hone]
    exact ih fun q hq => h q (List.mem_cons_of_mem _ hq)

/-- An update that must be a no-op on `sampleDevice`: an unknown twin
name, a known name with a null actual value, and a known name with no
actual report at all. -/
def noopUpdate : List (String × types.MsgTwin) :=
  [("pressure",
    { Actual := some { Value := some "5", Metadata := none }, Metadata := none }),
   ("temperature",
    { Actual := some { Value := none, Metadata := none }, Metadata := none }),
   ("humidity", { Actual := none, Metadata := none })]

/-- Witness for C3: the no-op update leaves the sample device's twins
unchanged. -/
theorem C3_merge_noop_witness :
    mergeTwins sampleDevice.Status.Twins noopUpdate = sampleDevice.Status.Twins :=
  (C3_merge_noop sampleDevice.Status.Twins noopUpdate (by decide)).2

/-- C6: for an update map (distinct keys), a later cached entry whose
propertyName repeats an earlier entry's is never touched by the merge,
and the first matching entry is the one whose `Reported` is
overwritten. -/
theorem C6_first_match_only (T : List v1alpha1.Twin)
    (U : List (String × types.MsgTwin)) (hU : (U.map Prod.fst).Nodup) :
    (∀ (i j : Nat) (ti tj : v1alpha1.Twin), i < j → T[i]? = some ti →
        T[j]? = some tj → ti.PropertyName = tj.PropertyName →
        (mergeTwins T U)[j]? = some tj) ∧
    (∀ (i : Nat) (t : v1alpha1.Twin) (d : types.MsgTwin)
        (fr : v1alpha1.TwinProperty), T[i]? = some t →
        lookupKey t.PropertyName U = some d →
        (∀ j, j < i → ∀ tj, T[j]? = some tj → tj.PropertyName ≠ t.PropertyName) →
        freshReported d = some fr →
        (mergeTwins T U)[i]? = some { t with Reported := fr }) :=
  ⟨fun _ _ _ _ hij hti htj hdup => mergeTwins_get_dup hij hti htj hdup,
   fun _ _ _ _ ht hl hfirst hfr => mergeTwins_get_write hU ht hl hfirst hfr⟩

/-- The repeated cached twin of `dupTwinList`. -/
def dupTwin : v1alpha1.Twin :=
  { PropertyName := "a",
    Desired := { Value := "", Metadata := [] },
    Reported := { Value := "0", Metadata := [] } }

/-- The update entry of `dupUpdate`. -/
def dupMsgTwin : types.MsgTwin :=
  { Actual := some { Value := some "1", Metadata := none }, Metadata := none }

/-- Witness for C6: on the duplicated twin list, the later duplicate
keeps its old entry and the first entry is overwritten. -/
theorem C6_first_match_only_witness :
    (mergeTwins dupTwinList dupUpdate)[1]? = some dupTwin ∧
    (mergeTwins dupTwinList dupUpdate)[0]? =
      some { dupTwin with Reported := { Value := "1", Metadata := [] } } :=
  ⟨(C6_first_match_only dupTwinList dupUpdate (by decide)).1 0 1 dupTwin dupTwin
      (by decide) (by decide) (by decide) rfl,
   (C6_first_match_only dupTwinList dupUpdate (by decide)).2 0 dupTwin dupMsgTwin
      { Value := "1", Metadata := [] } (by decide) (by decide)
      (fun j hj _ _ => absurd hj (Nat.not_lt_zero j)) (by decide)⟩

/-- C7: the merge is idempotent — merging the same update map (distinct
keys) twice yields the same twin list as merging it once. -/
theorem C7_merge_idempotent (T : List v1alpha1.Twin)
    (U : List (String × types.MsgTwin)) (hU : (U.map Prod.fst).Nodup) :
    mergeTwins (mergeTwins T U) U = mergeTwins T U :=
  mergeTwins_idem hU T

/-- Witness for C7 on the sample device and update. -/
theorem C7_merge_idempotent_witness :
    mergeTwins (mergeTwins sampleDevice.Status.Twins sampleUpdate) sampleUpdate =
      mergeTwins sampleDevice.Status.Twins sampleUpdate :=
  C7_merge_idempotent sampleDevice.Status.Twins sampleUpdate (by decide)

/-- C8: the merge is a deterministic pure function of the cached twin
list and the update map — the result does not depend on the iteration
order over the update map's keys: any two iteration orders (permuted
association lists with the map's distinct keys) give the same output. -/
theorem C8_merge_order_independent (T : List v1alpha1.Twin)
    (U U' : List (String × types.MsgTwin)) (hperm : U.Perm U')
    (hU : (U.map Prod.fst).Nodup) :
    mergeTwins T U = mergeTwins T U' :=
  mergeTwins_perm hperm hU T

/-- Witness for C8: iterating the sample update in reverse order yields
the same merged twin list. -/
theorem C8_merge_order_independent_witness :
    mergeTwins sampleDevice.Status.Twins sampleUpdate =
      mergeTwins sampleDevice.Status.Twins sampleUpdate.reverse :=
  C8_merge_order_independent sampleDevice.Status.Twins sampleUpdate
    sampleUpdate.reverse (by decide) (by decide)

/-- C4: when the resolved device identifier is absent from the cache,
the worker iteration mutates nothing and issues no store publish, and
the loop simply continues with the remaining messages. -/
theorem C4_cache_miss_noop
    (jm : String → Except String String)
    (ju : String → Except String types.DeviceTwinUpdate)
    (gid : String → Except String String)
    (jms : DeviceStatus → Except String String)
    (cache : String → Option v1alpha1.Device) (msg : Message)
    (deviceID : String) (msgs : List Message)
    (hid : gid msg.Resource = Except.ok deviceID)
    (hmiss : cache deviceID = none) :
    updateDeviceStatusOnce jm ju gid jms cache msg = (cache, []) ∧
    updateDeviceStatusLoop jm ju gid jms cache (msg :: msgs) =
      updateDeviceStatusLoop jm ju gid jms cache msgs := by
  have honce : updateDeviceStatusOnce jm ju gid jms cache msg = (cache, []) := by
    cases hdec : unmarshalDeviceStatusMessage jm ju msg with
    | error e => simp [updateDeviceStatusOnce, hdec]
    | ok m => simp [updateDeviceStatusOnce, hdec, hid, hmiss]
  exact ⟨honce, by simp [updateDeviceStatusLoop, honce]⟩

/-- C5: once decode, identifier resolution and cache load succeed, the
merged device is stored into the cache as the first effect — before any
patch effect — and both the resulting cache and that store effect are
the same for every serialization outcome (and the patch call's own
outcome is not even consulted by the iteration's state, see
`updateDeviceStatusOnce`). -/
theorem C5_store_unconditional
    (jm : String → Except String String)
    (ju : String → Except String types.DeviceTwinUpdate)
    (gid : String → Except String String)
    (jms : DeviceStatus → Except String String)
    (cache : String → Option v1alpha1.Device) (msg : Message)
    (msgTwin : types.DeviceTwinUpdate) (deviceID : String)
    (cacheDevice : v1alpha1.Device)
    (hdec : unmarshalDeviceStatusMessage jm ju msg = Except.ok msgTwin)
    (hid : gid msg.Resource = Except.ok deviceID)
    (hload : cache deviceID = some cacheDevice) :
    (updateDeviceStatusOnce jm ju gid jms cache msg).1 deviceID =
      some (mergeDeviceStatus cacheDevice msgTwin.Twin) ∧
    (updateDeviceStatusOnce jm ju gid jms cache msg).2.head? =
      some (Effect.store deviceID (mergeDeviceStatus cacheDevice msgTwin.Twin)) ∧
    (∀ jms' : DeviceStatus → Except String String,
      (updateDeviceStatusOnce jm ju gid jms' cache msg).1 =
        (updateDeviceStatusOnce jm ju gid jms cache msg).1 ∧
      (updateDeviceStatusOnce jm ju gid jms' cache msg).2.head? =
        (updateDeviceStatusOnce jm ju gid jms cache msg).2.head?) := by
  have key : ∀ jms' : DeviceStatus → Except String String,
      (updateDeviceStatusOnce jm ju gid jms' cache msg).1 =
        (fun k => if k = deviceID
          then some (mergeDeviceStatus cacheDevice msgTwin.Twin) else cache k) ∧
      (updateDeviceStatusOnce jm ju gid jms' cache msg).2.head? =
        some (Effect.store deviceID (mergeDeviceStatus cacheDevice msgTwin.Twin)) := by
    intro jms'
    simp only [updateDeviceStatusOnce, hdec, hid, hload]
    cases jms' { Status := { cacheDevice.Status with
        Twins := mergeTwins cacheDevice.Status.Twins msgTwin.Twin } } <;>
      exact ⟨rfl, rfl⟩
  refine ⟨?_, (key jms).2, fun jms' =>
    ⟨(key jms').1.trans (key jms).1.symm, (key jms').2.trans (key jms).2.symm⟩⟩
  rw [(key jms).1]
  simp

/-- A pass-through stand-in for `json.Marshal` on structured content. -/
def wJm : String → Except String String := fun v => Except.ok v

/-- A stand-in for `json.Unmarshal` that decodes every payload to the
sample update. -/
def wJu : String → Except String types.DeviceTwinUpdate :=
  fun _ => Except.ok { Twin := sampleUpdate }

/-- A stand-in for `messagelayer.GetDeviceID` resolving to `dev-1`. -/
def wGid : String → Except String String := fun _ => Except.ok "dev-1"

/-- A stand-in for `messagelayer.GetDeviceID` resolving to `dev-2`
(absent from the sample cache). -/
def wGidMiss : String → Except String String := fun _ => Except.ok "dev-2"

/-- A stand-in for `json.Marshal` of the status wrapper that always
fails, exercising the store-despite-serialization-failure path. -/
def wJmsFail : DeviceStatus → Except String String :=
  fun _ => Except.error "marshal error"

/-- A sample cache holding only `dev-1`. -/
def wCache : String → Option v1alpha1.Device :=
  fun k => if k = "dev-1" then some sampleDevice else none

/-- A sample twin-update message with byte content. -/
def sampleMessage : Message :=
  { ID := "m1", Operation := "update",
    Resource := "node/n1/device/dev-1/twin/edge_updated",
    Content := Content.bytes "raw" }

/-- Witness for C4: resolving to the absent `dev-2` leaves the cache
unchanged and produces no effects. -/
theorem C4_cache_miss_noop_witness :
    updateDeviceStatusOnce wJm wJu wGidMiss wJmsFail wCache sampleMessage =
      (wCache, []) :=
  (C4_cache_miss_noop wJm wJu wGidMiss wJmsFail wCache sampleMessage "dev-2" []
    rfl (by simp [wCache])).1

/-- Witness for C5: with a failing status marshaller the merged device
is still stored, and the store effect is first. -/
theorem C5_store_unconditional_witness :
    (updateDeviceStatusOnce wJm wJu wGid wJmsFail wCache sampleMessage).1 "dev-1" =
      some (mergeDeviceStatus sampleDevice sampleUpdate) ∧
    (updateDeviceStatusOnce wJm wJu wGid wJmsFail wCache sampleMessage).2.head? =
      some (Effect.store "dev-1" (mergeDeviceStatus sampleDevice sampleUpdate)) := by
  have h := C5_store_unconditional wJm wJu wGid wJmsFail wCache sampleMessage
    { Twin := sampleUpdate } "dev-1" sampleDevice rfl rfl (by simp [wCache])
  exact ⟨h.1, h.2.1⟩

/-- C9: the dispatcher enqueues a message exactly when it was received
without error and its resource locator parses to the "edge twin
updated" resource type; in every other case nothing is enqueued and the
loop continues with the next receive result. -/
theorem C9_dispatch_filter (grt : String → Except String String)
    (r : Except String Message) (m : Message) (rs : List (Except String Message)) :
    (dispatchStep grt r = some m ↔
      r = Except.ok m ∧ grt m.Resource = Except.ok ResourceTypeTwinEdgeUpdated) ∧
    dispatchMessageLoop grt (r :: rs) =
      (match dispatchStep grt r with
        | some msg => [msg]
        | none => []) ++ dispatchMessageLoop grt rs := by
  constructor
  · constructor
    · intro h
      cases r with
      | error e => simp [dispatchStep] at h
      | ok msg =>
        cases hg : grt msg.Resource with
        | error e => simp [dispatchStep, hg] at h
        | ok rt =>
          by_cases hrt : rt = ResourceTypeTwinEdgeUpdated
          · simp [dispatchStep, hg, hrt] at h
            subst h
            exact ⟨rfl, by rw [hg, hrt]⟩
          · simp [dispatchStep, hg, hrt] at h
    · rintro ⟨h₁, h₂⟩
      subst h₁
      simp [dispatchStep, h₂]
  · cases h : dispatchStep grt r <;> simp [dispatchMessageLoop, h]

/-- Witness for C9: a message whose resource parses to the twin-updated
type is enqueued. -/
theorem C9_dispatch_filter_witness :
    dispatchStep (fun _ => Except.ok ResourceTypeTwinEdgeUpdated)
      (Except.ok sampleMessage) = some sampleMessage :=
  ((C9_dispatch_filter (fun _ => Except.ok ResourceTypeTwinEdgeUpdated)
    (Except.ok sampleMessage) sampleMessage []).1).mpr ⟨rfl, rfl⟩

/-- C10: the decoder unmarshals byte content directly and otherwise
first marshals the structured value and unmarshals the resulting bytes;
it succeeds exactly when the marshal step (where taken) and the final
unmarshal succeed, and returns only an error otherwise. -/
theorem C10_decoder_shapes (jm : String → Except String String)
    (ju : String → Except String types.DeviceTwinUpdate) (msg : Message) :
    (∀ b, msg.Content = Content.bytes b →
      unmarshalDeviceStatusMessage jm ju msg = ju b) ∧
    (∀ v, msg.Content = Content.structured v →
      (∀ b, jm v = Except.ok b → unmarshalDeviceStatusMessage jm ju msg = ju b) ∧
      (∀ e, jm v = Except.error e →
        unmarshalDeviceStatusMessage jm ju msg = Except.error e)) ∧
    ((∃ t, unmarshalDeviceStatusMessage jm ju msg = Except.ok t) ↔
      (match msg.Content with
        | Content.bytes b => ∃ t, ju b = Except.ok t
        | Content.structured v =>
          ∃ b, jm v = Except.ok b ∧ ∃ t, ju b = Except.ok t)) := by
  refine ⟨?_, ?_, ?_⟩
  · intro b hb
    simp [unmarshalDeviceStatusMessage, hb]
  · intro v hv
    constructor
    · intro b hjm
      simp [unmarshalDeviceStatusMessage, hv, hjm]
    · intro e hjm
      simp [unmarshalDeviceStatusMessage, hv, hjm]
  · cases hc : msg.Content with
    | bytes b => simp [unmarshalDeviceStatusMessage, hc]
    | structured v =>
      cases hj : jm v with
      | error e => simp [unmarshalDeviceStatusMessage, hc, hj]
      | ok b => simp [unmarshalDeviceStatusMessage, hc, hj]

/-- Witness for C10: a structured content value decodes successfully
through the marshal-then-unmarshal path. -/
theorem C10_decoder_shapes_witness :
    unmarshalDeviceStatusMessage wJm wJu
      { ID := "m2", Operation := "update", Resource := "r",
        Content := Content.structured "obj" } =
      Except.ok { Twin := sampleUpdate } :=
  ((C10_decoder_shapes wJm wJu
    { ID := "m2", Operation := "update", Resource := "r",
      Content := Content.structured "obj" }).2.1 "obj" rfl).1 "obj" rfl

end controller
